import Mathlib

/-!
Verification of the chroma-viewer filter/query core.

The definitions below are a shallow embedding of the TypeScript source:

* `use-filters` (filter list ↔ where-clause compiler, `filtersToWhereClause`,
  `parseWhereClause`, `parseSingleCondition`, `setFiltersFromWhere`);
* the `FilterEditor`'s `parseValue`;
* the `/api/records`, `/api/search` and `/api/metadata` route handlers;
* the `use-records` / `use-search` hooks' request construction and
  response application.

JavaScript values are modelled by `JVal` (JSON-like data with exact
rationals standing in for IEEE doubles), and JavaScript reference
semantics, where it matters (`Set` membership in the metadata route), by
pairing a value with an allocation token (`JSRef`).
-/

namespace ChromaViewer

/-- JSON-like JavaScript values: the payloads of metadata maps and where
clauses.  Numbers are modelled as exact rationals. -/
inductive JVal where
  | str (s : String)
  | num (q : ℚ)
  | bool (b : Bool)
  | null
  | arr (items : List JVal)
  | obj (entries : List (String × JVal))
deriving Repr

/-- Whether a value is a JavaScript object in the `typeof` sense that the
source checks (`typeof v === "object" && v !== null`): arrays and plain
objects. -/
def isObjectVal : JVal → Bool
  | .arr _ => true
  | .obj _ => true
  | _ => false

/-- The key/value pairs that `Object.keys`/property access expose on a
value: an object's own entries in insertion order; an array's indices
paired with its elements; a string's indices paired with its characters;
nothing for numbers and booleans.  (A literal `null` makes `Object.keys`
throw in the source; no input considered here reaches that case.) -/
def jsEntries : JVal → List (String × JVal)
  | .obj entries => entries
  | .arr items => items.enum.map (fun p => (toString p.1, p.2))
  | .str s => s.toList.enum.map (fun p => (toString p.1, JVal.str p.2.toString))
  | _ => []

/-- The filter operators supported by the UI (`types`: FilterOperator =
"$eq" | "$ne" | "$gt" | "$lt" | "$in"). -/
inductive FilterOperator where
  | eq
  | ne
  | gt
  | lt
  | opIn
deriving DecidableEq, Repr

/-- The string key under which each operator appears in a where clause. -/
def FilterOperator.key : FilterOperator → String
  | .eq => "$eq"
  | .ne => "$ne"
  | .gt => "$gt"
  | .lt => "$lt"
  | .opIn => "$in"

/-- A committed metadata filter.  The source's `Filter` also carries an
opaque freshly-generated `id` token used only for list bookkeeping; the
claims compare filters up to this id, so the model omits it.  The source
types `value` as `string | number | string[]` but `parseSingleCondition`
stores whatever JSON value sits under the operator key via an unchecked
cast, so the model gives `value` the full `JVal` type. -/
structure Filter where
  field : String
  operator : FilterOperator
  value : JVal
deriving Repr

/-- The single predicate compiled from one filter, the object literal
built in both branches of `filtersToWhereClause`. -/
def predOf (f : Filter) : JVal :=
  .obj [(f.field, .obj [(f.operator.key, f.value)])]

/-- From use-filters `filtersToWhereClause`: empty list gives `null`
(modelled `none`), one filter gives its single predicate, more use `$and`
over the predicates in order. -/
def filtersToWhereClause (filters : List Filter) : Option JVal :=
  match filters with
  | [] => none
  | [f] => some (predOf f)
  | fs => some (.obj [("$and", .arr (fs.map predOf))])

/-- From use-filters: the operator-string validity check
(`validOperators.includes`), returned as the parsed operator. -/
def parseOp (s : String) : Option FilterOperator :=
  if s = "$eq" then some .eq
  else if s = "$ne" then some .ne
  else if s = "$gt" then some .gt
  else if s = "$lt" then some .lt
  else if s = "$in" then some .opIn
  else none

/-- From use-filters `parseSingleCondition`: a condition parses iff it has
exactly one own key, whose value is an object (not `null`) with exactly
one own key that is a supported operator; the value under the operator is
taken as-is (the source casts it without a runtime check). -/
def parseSingleCondition (condition : JVal) : Option Filter :=
  match jsEntries condition with
  | [(field, operatorObj)] =>
    if isObjectVal operatorObj then
      match jsEntries operatorObj with
      | [(opKey, value)] =>
        match parseOp opKey with
        | some op => some { field := field, operator := op, value := value }
        | none => none
      | _ => none
    else none
  | _ => none

/-- Property lookup of `"$and"` on a where clause, as in the source's
test `"$and" in where` followed by the access `where.$and`. -/
def lookupAnd (w : JVal) : Option JVal :=
  match w with
  | .obj entries => entries.lookup "$and"
  | _ => none

/-- From use-filters `parseWhereClause`: if the clause has an `$and`
array, each element is parsed independently and the unparseable ones are
skipped (the source's loop only pushes non-null results); otherwise the
clause itself is parsed as a single condition. -/
def parseWhereClause (w : JVal) : List Filter :=
  match lookupAnd w with
  | some (.arr conds) => conds.filterMap parseSingleCondition
  | _ =>
    match parseSingleCondition w with
    | some f => [f]
    | none => []

/-- From use-filters `setFiltersFromWhere`: a null clause clears the
filters, otherwise the committed filter list becomes the parse result. -/
def setFiltersFromWhere (w : Option JVal) : List Filter :=
  match w with
  | none => []
  | some v => parseWhereClause v

/-- The clause the orchestrator queries with is recomputed from the
committed filters (the `useMemo` in use-filters), never stored raw. -/
def committedWhereClause (filters : List Filter) : Option JVal :=
  filtersToWhereClause filters

/-- Key round-trip lemma: the predicate compiled from a filter parses
back to that filter. -/
theorem parseSingleCondition_predOf (f : Filter) :
    parseSingleCondition (predOf f) = some f := by
  obtain ⟨field, oper, value⟩ := f
  cases oper <;> rfl

/-- Sample filter: type equals "text". -/
def filterTypeText : Filter :=
  { field := "type", operator := .eq, value := .str "text" }

/-- Sample filter: page greater than 3. -/
def filterPageGt : Filter :=
  { field := "page", operator := .gt, value := .num 3 }

/-- C4: compile maps the empty filter list to null; a one-element list to
the single predicate keyed by the filter's field and operator; and a list
of two or more filters to an `$and` group holding exactly one predicate
per filter, in the original order. -/
theorem c4_compile_shape :
    filtersToWhereClause [] = none
    ∧ (∀ f : Filter,
        filtersToWhereClause [f] =
          some (JVal.obj [(f.field, JVal.obj [(f.operator.key, f.value)])]))
    ∧ (∀ fs : List Filter, 2 ≤ fs.length →
        filtersToWhereClause fs =
          some (JVal.obj [("$and", JVal.arr (fs.map predOf))])) := by
  refine ⟨rfl, fun f => rfl, fun fs h => ?_⟩
  match fs with
  | [] => simp at h
  | [f] => simp at h
  | a :: b :: t => rfl

/-- Witness for C4: the two-filter case at a concrete filter list. -/
theorem c4_compile_shape_witness :
    filtersToWhereClause [filterTypeText, filterPageGt] =
      some (JVal.obj
        [("$and", JVal.arr ([filterTypeText, filterPageGt].map predOf))]) :=
  c4_compile_shape.2.2 [filterTypeText, filterPageGt] (by decide)

/-- Parsing the mapped predicates of a filter list recovers the list. -/
theorem filterMap_parse_map_pred (l : List Filter) :
    List.filterMap parseSingleCondition (l.map predOf) = l := by
  induction l with
  | nil => rfl
  | cons x xs ih =>
    simp [List.filterMap_cons, parseSingleCondition_predOf, ih]

/-- C5: decompiling the compiled where clause of any filter list built
from the supported operators recovers the same fields, operators and
values in the same order (filter ids, which the model omits, are the only
permitted difference). -/
theorem c5_decompile_compile_roundtrip (fs : List Filter) :
    setFiltersFromWhere (filtersToWhereClause fs) = fs := by
  match fs with
  | [] => rfl
  | [f] =>
    obtain ⟨field, oper, value⟩ := f
    have hp := parseSingleCondition_predOf ⟨field, oper, value⟩
    simp only [predOf] at hp
    show parseWhereClause (JVal.obj [(field, JVal.obj [(oper.key, value)])])
        = [⟨field, oper, value⟩]
    unfold parseWhereClause lookupAnd
    rcases eq_or_ne field "$and" with h | h
    · subst h
      simp [List.lookup, hp]
    · simp [List.lookup, beq_eq_false_iff_ne.mpr (Ne.symm h), hp]
  | a :: b :: t =>
    show parseWhereClause
        (JVal.obj [("$and", JVal.arr ((a :: b :: t).map predOf))])
        = a :: b :: t
    unfold parseWhereClause lookupAnd
    simpa [List.lookup] using filterMap_parse_map_pred (a :: b :: t)

/-- A raw clause using the unsupported operator `$gte`. -/
def rawUnsupported : JVal :=
  .obj [("a", .obj [("$gte", .num 1)])]

/-- A raw `$and` clause mixing one supported and one unsupported
condition. -/
def rawMixed : JVal :=
  .obj [("$and", .arr [predOf filterTypeText, rawUnsupported])]

/-- Counterexample to C6: for a clause that is not null, not a supported
predicate and not an and-array of supported predicates, the code does not
keep the raw clause as the query source: decompiling `a $gte 1` yields no
filters and the recompiled query clause is null, not the raw clause; and
for a mixed `$and` clause, filter chips ARE derived from the recognizable
part. -/
theorem c6_raw_clause_not_preserved :
    setFiltersFromWhere (some rawUnsupported) = []
    ∧ committedWhereClause (setFiltersFromWhere (some rawUnsupported)) = none
    ∧ (none : Option JVal) ≠ some rawUnsupported
    ∧ parseWhereClause rawMixed = [filterTypeText] := by
  refine ⟨rfl, rfl, by simp, ?_⟩
  rfl

/-- C6 (amended): decompiling recognizes conditions independently — the
elements of an `$and` array are parsed one by one and the unrecognizable
ones are dropped, so chips are derived exactly for the recognizable
conditions; the raw clause itself is not preserved: the clause used for
querying is recompiled from the recognized filters, and a clause with no
recognizable condition becomes null. -/
theorem c6_unrecognized_conditions_dropped :
    (∀ conds : List JVal,
        parseWhereClause (JVal.obj [("$and", JVal.arr conds)]) =
          conds.filterMap parseSingleCondition)
    ∧ parseWhereClause rawMixed = [filterTypeText]
    ∧ setFiltersFromWhere (some rawUnsupported) = []
    ∧ committedWhereClause (setFiltersFromWhere (some rawUnsupported)) =
        none := by
  refine ⟨fun conds => rfl, rfl, rfl, rfl⟩

/-! Value parsing in the filter editor (`parseValue` in the
FilterEditor component), together with a model of the JavaScript
`Number(string)` conversion it calls. -/

/-- A JavaScript number that `Number(string)` can yield on success:
a finite value (exact rational in this model) or an infinity.  A failed
conversion (NaN) is modelled as `none` at the use sites. -/
inductive JsNum where
  | fin (q : ℚ)
  | inf
  | negInf
deriving DecidableEq, Repr

/-- Digit run parsed in base 10; `none` unless the run is nonempty and
all decimal digits. -/
def parseDecDigits (cs : List Char) : Option Nat :=
  if cs.isEmpty then none
  else if cs.all (fun c => c.isDigit) then
    some (cs.foldl (fun a c => a * 10 + (c.toNat - 48)) 0)
  else none

/-- Value of one hexadecimal digit. -/
def hexDigitVal (c : Char) : Option Nat :=
  if c.isDigit then some (c.toNat - 48)
  else if 'a' ≤ c ∧ c ≤ 'f' then some (c.toNat - 87)
  else if 'A' ≤ c ∧ c ≤ 'F' then some (c.toNat - 55)
  else none

/-- Digit run in the given base (2, 8 or 16), `none` if empty or any
digit is out of range. -/
def parseRadix (base : Nat) (cs : List Char) : Option Nat :=
  if cs.isEmpty then none
  else
    cs.foldl
      (fun acc c =>
        match acc, hexDigitVal c with
        | some a, some d => if d < base then some (a * base + d) else none
        | _, _ => none)
      (some 0)

/-- The `0x`/`0o`/`0b` non-decimal integer forms accepted by the
JavaScript string-to-number conversion. -/
def parseNonDec (cs : List Char) : Option ℚ :=
  match cs with
  | '0' :: c :: rest =>
    if c = 'x' ∨ c = 'X' then (parseRadix 16 rest).map (fun n => (n : ℚ))
    else if c = 'o' ∨ c = 'O' then (parseRadix 8 rest).map (fun n => (n : ℚ))
    else if c = 'b' ∨ c = 'B' then (parseRadix 2 rest).map (fun n => (n : ℚ))
    else none
  | _ => none

/-- Optional leading sign; returns the negativity flag and the rest. -/
def parseSign : List Char → Bool × List Char
  | '+' :: rest => (false, rest)
  | '-' :: rest => (true, rest)
  | cs => (false, cs)

/-- Split at the first exponent marker `e`/`E`, if any. -/
def splitExp (cs : List Char) : List Char × Option (List Char) :=
  match cs.findIdx? (fun c => c == 'e' || c == 'E') with
  | none => (cs, none)
  | some i => (cs.take i, some (cs.drop (i + 1)))

/-- Decimal mantissa: digits, digits`.`digits?, or `.`digits. -/
def parseMantissa (cs : List Char) : Option ℚ :=
  match cs.splitOn '.' with
  | [ip] => (parseDecDigits ip).map (fun n => (n : ℚ))
  | [ip, fp] =>
    if ip.isEmpty then
      (parseDecDigits fp).map (fun n => (n : ℚ) / ((10 : ℚ) ^ fp.length))
    else
      match parseDecDigits ip with
      | none => none
      | some n =>
        if fp.isEmpty then some ((n : ℚ))
        else
          (parseDecDigits fp).map
            (fun m => (n : ℚ) + (m : ℚ) / ((10 : ℚ) ^ fp.length))
  | _ => none

/-- Signed exponent digits. -/
def parseExponent (cs : List Char) : Option Int :=
  match cs with
  | '+' :: rest => (parseDecDigits rest).map Int.ofNat
  | '-' :: rest => (parseDecDigits rest).map (fun n => -(Int.ofNat n))
  | _ => (parseDecDigits cs).map Int.ofNat

/-- Ten to an integer power, as an exact rational. -/
def qpow10 (e : Int) : ℚ :=
  if 0 ≤ e then (10 : ℚ) ^ e.toNat else 1 / (10 : ℚ) ^ (-e).toNat

/-- Model of the JavaScript `Number(string)` conversion (ECMAScript
StringToNumber) used by the source's `parseValue`: surrounding whitespace
is ignored, the empty string is 0, `0x`/`0o`/`0b` integers parse in their
own base, and otherwise an optionally signed decimal with optional
fraction, exponent or `Infinity` is accepted; anything else is NaN
(`none`).  Finite doubles are modelled as exact rationals. -/
def jsStringToNumber (s : String) : Option JsNum :=
  let cs := s.trim.toList
  if cs.isEmpty then some (.fin 0)
  else
    match parseNonDec cs with
    | some n => some (.fin n)
    | none =>
      let (neg, rest) := parseSign cs
      if rest = "Infinity".toList then
        some (if neg then .negInf else .inf)
      else
        let (m, eOpt) := splitExp rest
        match parseMantissa m, eOpt with
        | some q, none => some (.fin (if neg then -q else q))
        | some q, some e =>
          match parseExponent e with
          | some ex =>
            some (.fin (if neg then -(q * qpow10 ex) else q * qpow10 ex))
          | none => none
        | none, _ => none

/-- The typed value the filter editor stores:
`string | number | string[]`. -/
inductive ParsedValue where
  | str (s : String)
  | num (n : JsNum)
  | strs (items : List String)
deriving DecidableEq, Repr

/-- From the FilterEditor's `parseValue`: for `$in`, split the trimmed
input on commas and trim each segment; otherwise convert with `Number`
and keep the number when it is not NaN and the trimmed input is nonempty,
else keep the trimmed string. -/
def parseValue (value : String) (operator : FilterOperator) : ParsedValue :=
  let trimmed := value.trim
  if operator = .opIn then
    .strs ((trimmed.splitOn ",").map String.trim)
  else
    match jsStringToNumber trimmed with
    | some n => if trimmed = "" then .str trimmed else .num n
    | none => .str trimmed

/-- The spec's reading of the conversion: a plain base-10 numeric parse
of the trimmed string (optional sign, decimal digits with optional
fraction and base-10 exponent); no hexadecimal, octal, binary or
Infinity forms.  Kept for comparison with the source's behaviour. -/
def specBase10Parse (s : String) : Option ℚ :=
  let cs := s.trim.toList
  let (neg, rest) := parseSign cs
  let (m, eOpt) := splitExp rest
  match parseMantissa m, eOpt with
  | some q, none => some (if neg then -q else q)
  | some q, some e =>
    match parseExponent e with
    | some ex => some (if neg then -(q * qpow10 ex) else q * qpow10 ex)
    | none => none
  | none, _ => none

/-- What C7 says `parseValue` does for operators other than `in`:
return the base-10 parse when it succeeds, otherwise the trimmed
string. -/
def specParseValue (value : String) (operator : FilterOperator) :
    ParsedValue :=
  let trimmed := value.trim
  if operator = .opIn then
    .strs ((trimmed.splitOn ",").map String.trim)
  else
    match specBase10Parse trimmed with
    | some q => .num (.fin q)
    | none => .str trimmed

/-- Counterexample to C7: on the input `0x10` with operator `eq`, the
code converts with JavaScript `Number`, which accepts the hexadecimal
form and yields 16, while a base-10 numeric parse fails, so the claim
requires the trimmed string `0x10` to be kept. -/
theorem c7_hex_string_parsed_as_number :
    parseValue "0x10" .eq = .num (.fin 16)
    ∧ specParseValue "0x10" .eq = .str "0x10"
    ∧ ParsedValue.num (.fin 16) ≠ ParsedValue.str "0x10" := by
  refine ⟨by with_unfolding_all decide, by with_unfolding_all decide,
    by decide⟩

/-- C7 (amended): for `in` the raw string is split on commas with each
segment trimmed, and the result is a sequence exactly when the operator
is `in`; for every other operator the trimmed string is converted with
JavaScript `Number` — which also accepts hexadecimal, octal, binary,
exponent and Infinity forms — and the number is returned on success
(non-NaN, nonempty input), otherwise the trimmed string: so `a, b, c`
with `in` gives `["a","b","c"]`, `42` with `eq` gives 42, `abc` with `eq`
gives `abc`, and `0x10` with `eq` gives 16. -/
theorem c7_parse_value_behavior :
    (∀ (s : String) (op : FilterOperator),
        (∃ items, parseValue s op = .strs items) ↔ op = .opIn)
    ∧ parseValue "a, b, c" .opIn = .strs ["a", "b", "c"]
    ∧ parseValue "x" .opIn = .strs ["x"]
    ∧ parseValue "42" .eq = .num (.fin 42)
    ∧ parseValue "abc" .eq = .str "abc"
    ∧ parseValue "0x10" .eq = .num (.fin 16)
    ∧ parseValue " 1.5e2 " .lt = .num (.fin 150)
    ∧ parseValue "-Infinity" .gt = .num .negInf
    ∧ parseValue "" .eq = .str "" := by
  refine ⟨?_, by with_unfolding_all decide, by with_unfolding_all decide,
    by with_unfolding_all decide, by with_unfolding_all decide,
    by with_unfolding_all decide, by with_unfolding_all decide,
    by with_unfolding_all decide, by with_unfolding_all decide⟩
  intro s op
  constructor
  · rintro ⟨items, h⟩
    by_contra hop
    simp only [parseValue, if_neg hop] at h
    cases hj : jsStringToNumber s.trim with
    | none => simp [hj] at h
    | some n =>
      simp only [hj] at h
      split at h <;> simp at h
  · rintro rfl
    exact ⟨(s.trim.splitOn ",").map String.trim, by simp [parseValue]⟩

/-! Records and the result adapters of the API routes. -/

/-- The `ChromaRecord` shape the routes return: id, nullable document,
nullable metadata map, nullable embedding vector. -/
structure ChromaRecord where
  id : String
  document : Option String
  metadata : Option (List (String × JVal))
  embedding : Option (List ℚ)
deriving Repr

/-- The `result.column?.[index] ?? null` access pattern of the routes: a
missing column, or an index beyond it, yields null. -/
def colAt {α : Type} (col : Option (List (Option α))) (i : Nat) : Option α :=
  match col with
  | none => none
  | some xs => xs.getD i none

/-- Raw `collection.get` result: parallel columns indexed by position. -/
structure GetResult where
  ids : List String
  documents : Option (List (Option String))
  metadatas : Option (List (Option (List (String × JVal))))
  embeddings : Option (List (Option (List ℚ)))

/-- The zip of a `get` result into records, as in the records route and
the text branch of the search route
(`result.ids.map((id, index) => ...)`). -/
def recordsFromGet (g : GetResult) : List ChromaRecord :=
  g.ids.enum.map fun p =>
    { id := p.2
      document := colAt g.documents p.1
      metadata := colAt g.metadatas p.1
      embedding := colAt g.embeddings p.1 }

/-- Raw `collection.query` result: nested per-query-text columns. -/
structure QueryResult where
  ids : List (List String)
  documents : Option (List (List (Option String)))
  metadatas : Option (List (List (Option (List (String × JVal)))))
  distances : Option (List (List ℚ))

/-- The semantic branch of the search route: flatten the first nested
row of each column (`result.ids[0] || []` etc.), zip into records with
`embedding: null`, and return the distances row. -/
def semanticSearchResponse (r : QueryResult) :
    List ChromaRecord × List ℚ :=
  let ids := r.ids.getD 0 []
  let documents := match r.documents with
    | none => []
    | some ls => ls.getD 0 []
  let metadatas := match r.metadatas with
    | none => []
    | some ls => ls.getD 0 []
  let distances := match r.distances with
    | none => []
    | some ls => ls.getD 0 []
  (ids.enum.map fun p =>
    { id := p.2
      document := documents.getD p.1 none
      metadata := metadatas.getD p.1 none
      embedding := none },
   distances)

/-- The text branch of the search route: the same zip as browse, with an
empty distance list (text search has no ranking). -/
def textSearchResponse (g : GetResult) : List ChromaRecord × List ℚ :=
  (recordsFromGet g, [])

/-! The records route (`GET /api/records`) over a model of the external
collection. -/

/-- A collection held by the external Chroma service, as a record
list. -/
structure Collection where
  recs : List ChromaRecord

/-- Equality of primitive metadata values, as used by the collaborator's
filters; values of different primitive types never compare equal. -/
def primEq : JVal → JVal → Bool
  | .str a, .str b => a == b
  | .num a, .num b => a == b
  | .bool a, .bool b => a == b
  | .null, .null => true
  | _, _ => false

/-- Modelled from the spec: one predicate of the external Collection
Query Service's metadata filtering (§6, operators `$eq`, `$ne`, `$gt`,
`$lt`, `$in`). -/
def evalOp (op : String) (v target : JVal) : Bool :=
  if op = "$eq" then primEq target v
  else if op = "$ne" then !(primEq target v)
  else if op = "$gt" then
    match target, v with
    | .num a, .num b => decide (b < a)
    | .str a, .str b => decide (b < a)
    | _, _ => false
  else if op = "$lt" then
    match target, v with
    | .num a, .num b => decide (a < b)
    | .str a, .str b => decide (a < b)
    | _, _ => false
  else if op = "$in" then
    match v with
    | .arr xs => xs.any (fun x => primEq target x)
    | _ => false
  else false

/-- Modelled from the spec: a predicate object `field: (op: value)`
holds of a metadata map when the field is present and the operator
matches (§3's Predicate). -/
def evalPredicateObj (w : JVal) (md : List (String × JVal)) : Bool :=
  match w with
  | .obj [(field, .obj [(op, v)])] =>
    match md.lookup field with
    | some target => evalOp op v target
    | none => false
  | _ => false

/-- Modelled from the spec: a WhereClause is a single predicate or a
flat `$and` conjunction of predicates (§3; conjunction-only by
design). -/
def evalWhere (w : JVal) (md : List (String × JVal)) : Bool :=
  match w with
  | .obj [("$and", .arr ws)] => ws.all (fun p => evalPredicateObj p md)
  | _ => evalPredicateObj w md

/-- A record matches a where clause through its metadata; a record with
no metadata matches nothing. -/
def matchesWhere (w : JVal) (r : ChromaRecord) : Bool :=
  match r.metadata with
  | some md => evalWhere w md
  | none => false

/-- Modelled from the spec: the collaborator's `collection.count()`,
the full record count. -/
def chromaCount (c : Collection) : Nat := c.recs.length

/-- Modelled from the spec: the collaborator's `collection.get` with a
where clause, offset and limit: filter, then slice. -/
def chromaGet (c : Collection) (off lim : Nat) (w : Option JVal) :
    List ChromaRecord :=
  let filtered := match w with
    | none => c.recs
    | some v => c.recs.filter (matchesWhere v)
  (filtered.drop off).take lim

/-- The body of the records route response. -/
structure RecordsResponse where
  records : List ChromaRecord
  total : Nat
  page : Nat
  pageSize : Nat

/-- From the records route `GET`: `total` is `collection.count()`
(computed before and independently of the where clause), the records are
`collection.get` with `offset = (page - 1) * pageSize`, `limit =
pageSize` and the request's where clause. -/
def recordsRouteGET (c : Collection) (page pageSize : Nat)
    (w : Option JVal) : RecordsResponse :=
  { records := chromaGet c ((page - 1) * pageSize) pageSize w
    total := chromaCount c
    page := page
    pageSize := pageSize }

/-- A demo record whose metadata type is "text". -/
def textRecord (i : Nat) : ChromaRecord :=
  { id := "text-" ++ toString i
    document := some "a text record"
    metadata := some [("type", .str "text")]
    embedding := none }

/-- A demo record whose metadata type is "image". -/
def imageRecord (i : Nat) : ChromaRecord :=
  { id := "image-" ++ toString i
    document := some "an image record"
    metadata := some [("type", .str "image")]
    embedding := none }

/-- A ten-record collection of which exactly three records have
`type = "text"`. -/
def demoCollection : Collection :=
  ⟨[textRecord 1, textRecord 2, textRecord 3,
    imageRecord 1, imageRecord 2, imageRecord 3, imageRecord 4,
    imageRecord 5, imageRecord 6, imageRecord 7]⟩

/-- C1 (code bug): for a browse fetch with the non-null where clause
`type $eq "text"` against a ten-record collection with three matching
records, the route reports `total = 10` — the unfiltered collection
size — even though only three records match (and the returned record
page is indeed filtered down to those three), contradicting the claimed
`total = 3`. -/
theorem c1_total_is_unfiltered_count :
    committedWhereClause [filterTypeText] = some (predOf filterTypeText)
    ∧ (recordsRouteGET demoCollection 1 10
        (some (predOf filterTypeText))).total = 10
    ∧ (demoCollection.recs.filter
        (matchesWhere (predOf filterTypeText))).length = 3
    ∧ (recordsRouteGET demoCollection 1 10
        (some (predOf filterTypeText))).records.length = 3
    ∧ (10 : Nat) ≠ 3 := by
  refine ⟨rfl, rfl, by with_unfolding_all decide,
    by with_unfolding_all decide, by decide⟩

/-! Request construction in the hooks. -/

/-- From use-records `fetchRecords`: the query parameters of the browse
fetch URL `/api/records?collection=...&page=...&pageSize=...` — these
are all of them; the hook has no access to the filter state and sends no
`where` parameter. -/
def recordsRequestParams (collection : String) (page pageSize : Nat) :
    List (String × String) :=
  [("collection", collection),
   ("page", toString page),
   ("pageSize", toString pageSize)]

/-- From use-search `search` (both variants of the hook): the JSON body
of the search request — `collection`, `query`, `type`, `limit`, and
nothing else; no `where` member. -/
def searchRequestBody (collection query searchType : String)
    (limit : Nat) : List (String × JVal) :=
  [("collection", .str collection),
   ("query", .str query),
   ("type", .str searchType),
   ("limit", .num limit)]

/-- C2 (code bug): with a non-empty committed filter list the compiled
where clause is non-null, yet neither the browse fetch nor the search
fetch carries any `where` component — the requests are built from fixed
key sets that do not include `where`, whatever the filter state. -/
theorem c2_fetches_omit_where_clause :
    committedWhereClause [filterTypeText] ≠ none
    ∧ (∀ (c : String) (p ps : Nat),
        (recordsRequestParams c p ps).map Prod.fst =
          ["collection", "page", "pageSize"])
    ∧ (∀ (c q t : String) (l : Nat),
        (searchRequestBody c q t l).map Prod.fst =
          ["collection", "query", "type", "limit"])
    ∧ "where" ∉ (["collection", "page", "pageSize"] : List String)
    ∧ "where" ∉ (["collection", "query", "type", "limit"] : List String) := by
  refine ⟨by simp [committedWhereClause, filtersToWhereClause],
    fun c p ps => rfl, fun c q t l => rfl, by decide, by decide⟩

/-! Response application in the browse slice (use-records). -/

/-- The state cells of the browse slice that the fetch handler
writes. -/
structure RecordsSliceState where
  records : List ChromaRecord
  total : Nat
  error : Option String
  isLoading : Bool

/-- One completed page response. -/
structure PageResponse where
  records : List ChromaRecord
  total : Nat

/-- From use-records `fetchRecords`' success path: `setRecords`,
`setTotal`, then `setIsLoading(false)` — applied unconditionally; the
hook keeps no request generation and never checks whether a newer fetch
has been issued since. -/
def applyFetchSuccess (s : RecordsSliceState) (r : PageResponse) :
    RecordsSliceState :=
  { s with records := r.records, total := r.total, isLoading := false }

/-- The slice state after a sequence of responses completes, in
completion order. -/
def applyCompletions (s : RecordsSliceState) (resps : List PageResponse) :
    RecordsSliceState :=
  resps.foldl applyFetchSuccess s

/-- Initial slice state. -/
def initialSlice : RecordsSliceState :=
  { records := [], total := 0, error := none, isLoading := true }

/-- The single record of the page-2 response. -/
def pageTwoRecord : ChromaRecord :=
  { id := "page2-rec", document := none, metadata := none,
    embedding := none }

/-- The single record of the page-3 response. -/
def pageThreeRecord : ChromaRecord :=
  { id := "page3-rec", document := none, metadata := none,
    embedding := none }

/-- The response of the page-2 request. -/
def pageTwoResponse : PageResponse :=
  { records := [pageTwoRecord], total := 30 }

/-- The response of the page-3 request. -/
def pageThreeResponse : PageResponse :=
  { records := [pageThreeRecord], total := 30 }

/-- Counterexample to C3: when the page-2 response completes after the
page-3 response (the page-3 request having been issued, fetched and
applied first), the stale page-2 response is applied anyway and the
displayed records are page 2's, not page 3's. -/
theorem c3_stale_response_overwrites :
    (applyCompletions initialSlice
      [pageThreeResponse, pageTwoResponse]).records = pageTwoResponse.records
    ∧ pageTwoResponse.records ≠ pageThreeResponse.records := by
  refine ⟨rfl, ?_⟩
  intro h
  simp only [pageTwoResponse, pageThreeResponse, pageTwoRecord,
    pageThreeRecord, List.cons.injEq, ChromaRecord.mk.injEq] at h
  exact absurd h.1.1 (by decide)

/-- C3 (amended): the browse slice has no stale-response guard — every
completed response is applied, so after any completion sequence the
displayed records and total are those of the most recently completed
response, regardless of request issue order. -/
theorem c3_last_completed_response_wins (s : RecordsSliceState)
    (resps : List PageResponse) (r : PageResponse) :
    (applyCompletions s (resps ++ [r])).records = r.records
    ∧ (applyCompletions s (resps ++ [r])).total = r.total := by
  constructor <;>
    simp [applyCompletions, List.foldl_append, applyFetchSuccess]

/-! Page reset behaviour (the `useEffect` in use-records). -/

/-- From use-records: `useEffect(() => setPage(1), [collection,
pageSize])` — after a render, the page resets to 1 exactly when the
collection or the page size differs from the previous render.  The
filter-list parameters are present so the claim can be stated; they do
not occur in the dependency list (the hook does not receive the filters
at all) and so cannot affect the result. -/
def pageAfterRender (oldCollection newCollection : String)
    (oldPageSize newPageSize : Nat)
    (oldFilters newFilters : List Filter) (page : Nat) : Nat :=
  if newCollection ≠ oldCollection ∨ newPageSize ≠ oldPageSize then 1
  else page

/-- Counterexample to C8: a change of the committed filter list alone
(collection and page size unchanged) does not reset the page — from page
5 it stays 5, not 1. -/
theorem c8_filter_change_keeps_page :
    pageAfterRender "docs" "docs" 10 10 [] [filterTypeText] 5 = 5
    ∧ ([] : List Filter) ≠ [filterTypeText]
    ∧ (5 : Nat) ≠ 1 := by
  refine ⟨by with_unfolding_all decide, by simp, by decide⟩

/-- C8 (amended): the page resets to 1 whenever the page size or the
active collection changes, regardless of the prior page; a change of the
committed filter list alone leaves the page untouched. -/
theorem c8_page_resets_on_pagesize_or_collection :
    (∀ (oc nc : String) (ops nps : Nat) (ofs nfs : List Filter) (p : Nat),
        nc ≠ oc ∨ nps ≠ ops →
          pageAfterRender oc nc ops nps ofs nfs p = 1)
    ∧ (∀ (c : String) (ps : Nat) (ofs nfs : List Filter) (p : Nat),
        pageAfterRender c c ps ps ofs nfs p = p) := by
  constructor
  · intro oc nc ops nps ofs nfs p h
    simp [pageAfterRender, h]
  · intro c ps ofs nfs p
    simp [pageAfterRender]

/-- Witness for C8: at a concrete collection switch the page resets
to 1. -/
theorem c8_page_resets_witness :
    pageAfterRender "docs" "images" 10 10 [] [] 7 = 1 :=
  c8_page_resets_on_pagesize_or_collection.1 "docs" "images" 10 10 [] [] 7
    (Or.inl (by decide))

/-! C10: embeddings in search responses. -/

/-- Default record for positional access. -/
def emptyRecord : ChromaRecord :=
  { id := "", document := none, metadata := none, embedding := none }

/-- C10: every record of a semantic search response has a null
embedding, whatever the raw query result holds, while the browse/text
zip (`recordsFromGet`) carries the raw embedding column through
position by position. -/
theorem c10_semantic_embedding_null :
    (∀ (r : QueryResult),
        ∀ rec ∈ (semanticSearchResponse r).1, rec.embedding = none)
    ∧ (∀ (g : GetResult) (i : Nat), i < g.ids.length →
        ((recordsFromGet g).getD i emptyRecord).embedding =
          colAt g.embeddings i) := by
  constructor
  · intro r rec hmem
    simp only [semanticSearchResponse, List.mem_map] at hmem
    obtain ⟨p, hp, rfl⟩ := hmem
    rfl
  · intro g i hi
    rw [recordsFromGet, List.getD_eq_getElem?_getD, List.getElem?_map,
      List.getElem?_enum, List.getElem?_eq_getElem hi]
    rfl

/-- A raw semantic query result whose stored record does have an
embedding column upstream (the route never requests it). -/
def demoQueryResult : QueryResult :=
  { ids := [["hit-1"]]
    documents := some [[some "a document"]]
    metadatas := none
    distances := some [[(1 : ℚ) / 4]] }

/-- The record the semantic branch produces for `demoQueryResult`. -/
def demoSemanticRecord : ChromaRecord :=
  { id := "hit-1", document := some "a document", metadata := none,
    embedding := none }

/-- Witness for C10: the concrete semantic search record has a null
embedding. -/
theorem c10_semantic_embedding_null_witness :
    demoSemanticRecord.embedding = none :=
  c10_semantic_embedding_null.1 demoQueryResult demoSemanticRecord
    (List.Mem.head _)

/-! C9: metadata field sampling in the metadata route. -/

/-- A JavaScript runtime value as seen by the metadata route: its JSON
shape together with an allocation token, so that the reference identity
that `Set` membership uses for arrays and objects can be expressed. -/
structure JSRef where
  val : JVal
  ref : Nat

/-- JavaScript SameValueZero, the equality `Set.prototype.add` uses:
primitives compare by value, arrays and objects by reference identity,
and a primitive never equals an object. -/
def sameValueZero (a b : JSRef) : Bool :=
  if isObjectVal a.val then isObjectVal b.val && (a.ref == b.ref)
  else if isObjectVal b.val then false
  else primEq a.val b.val

/-- From the metadata route `detectType`: null, arrays, then `typeof`.
(`undefined` cannot occur in JSON-decoded metadata and is omitted.) -/
def detectType (v : JVal) : String :=
  match v with
  | .null => "null"
  | .arr _ => "array"
  | .str _ => "string"
  | .num _ => "number"
  | .bool _ => "boolean"
  | .obj _ => "object"

/-- The `Set<string>.add` of the route: insertion-ordered, value-deduplicated. -/
def strSetAdd (s : List String) (v : String) : List String :=
  if v ∈ s then s else s ++ [v]

/-- The `Set<unknown>.add` of the route: insertion-ordered, deduplicated by
SameValueZero — reference identity for arrays and objects. -/
def refSetAdd (s : List JSRef) (v : JSRef) : List JSRef :=
  if s.any (fun x => sameValueZero x v) then s else s ++ [v]

/-- The per-field accumulator of the metadata route. -/
structure FieldData where
  types : List String
  samples : List JSRef

/-- The accumulator a freshly observed key starts from. -/
def emptyFieldData : FieldData := { types := [], samples := [] }

/-- From the metadata route's loop body: add the detected type, and add
the value to the samples only while fewer than 5 are held. -/
def addObservation (d : FieldData) (v : JSRef) : FieldData :=
  { types := strSetAdd d.types (detectType v.val)
    samples :=
      if d.samples.length < 5 then refSetAdd d.samples v else d.samples }

/-- The route's `Map.get`-or-create followed by in-place update: existing keys keep
their position, new keys append at the end (JavaScript `Map` insertion
order). -/
def updateAssoc (m : List (String × FieldData)) (key : String)
    (f : FieldData → FieldData) : List (String × FieldData) :=
  match m with
  | [] => [(key, f emptyFieldData)]
  | (k, d) :: rest =>
    if k = key then (k, f d) :: rest
    else (k, d) :: updateAssoc rest key f

/-- One sampled metadata map processed into the field map (`continue`
on null metadata, otherwise each entry observed in order). -/
def analyzeStep (m : List (String × FieldData))
    (md : Option (List (String × JSRef))) : List (String × FieldData) :=
  match md with
  | none => m
  | some entries =>
    entries.foldl
      (fun acc kv => updateAssoc acc kv.1 (fun d => addObservation d kv.2))
      m

/-- From the metadata route `GET`: fold the sampled records' metadata
maps into the field map. -/
def analyzeMetadatas
    (metadatas : List (Option (List (String × JSRef)))) :
    List (String × FieldData) :=
  metadatas.foldl analyzeStep []

/-- A fold preserves any invariant its step preserves. -/
theorem foldl_preserves {α β : Type} (P : β → Prop) (f : β → α → β)
    (hstep : ∀ b a, P b → P (f b a)) :
    ∀ (l : List α) (b : β), P b → P (l.foldl f b) := by
  intro l
  induction l with
  | nil => exact fun b hb => hb
  | cons a t ih => exact fun b hb => ih (f b a) (hstep b a hb)

/-- The sample invariant: at most five samples, pairwise distinct under
SameValueZero. -/
def samplesOK (d : FieldData) : Prop :=
  d.samples.length ≤ 5
  ∧ d.samples.Pairwise (fun a b => sameValueZero a b = false)

/-- One observation preserves the sample invariant. -/
theorem addObservation_samplesOK (d : FieldData) (v : JSRef)
    (h : samplesOK d) : samplesOK (addObservation d v) := by
  obtain ⟨hlen, hpw⟩ := h
  unfold samplesOK addObservation
  dsimp only
  by_cases hl : d.samples.length < 5
  · rw [if_pos hl]
    unfold refSetAdd
    by_cases ha : d.samples.any (fun x => sameValueZero x v) = true
    · rw [if_pos ha]
      exact ⟨hlen, hpw⟩
    · rw [if_neg ha]
      constructor
      · rw [List.length_append, List.length_singleton]
        omega
      · rw [List.pairwise_append]
        refine ⟨hpw, List.pairwise_singleton _ _, ?_⟩
        intro a haa b hb
        rw [List.mem_singleton] at hb
        subst hb
        simp only [List.any_eq_true, not_exists, not_and] at ha
        exact Bool.not_eq_true _ ▸ ha a haa
  · rw [if_neg hl]
    exact ⟨hlen, hpw⟩

/-- Updating one association entry preserves a per-entry invariant that the update
function preserves and that holds of a fresh entry. -/
theorem updateAssoc_forall {P : FieldData → Prop} (key : String)
    (f : FieldData → FieldData) (hf : ∀ d, P d → P (f d))
    (h0 : P (f emptyFieldData)) :
    ∀ (m : List (String × FieldData)), (∀ kd ∈ m, P kd.2) →
      ∀ kd ∈ updateAssoc m key f, P kd.2 := by
  intro m
  induction m with
  | nil =>
    intro _ kd hkd
    simp only [updateAssoc, List.mem_singleton] at hkd
    subst hkd
    exact h0
  | cons hd tl ih =>
    obtain ⟨k, d⟩ := hd
    intro hm kd hkd
    simp only [updateAssoc] at hkd
    by_cases hk : k = key
    · rw [if_pos hk] at hkd
      rcases List.mem_cons.mp hkd with rfl | hmem
      · exact hf d (hm (k, d) (List.mem_cons_self _ _))
      · exact hm kd (List.mem_cons_of_mem _ hmem)
    · rw [if_neg hk] at hkd
      rcases List.mem_cons.mp hkd with rfl | hmem
      · exact hm (k, d) (List.mem_cons_self _ _)
      · exact ih (fun x hx => hm x (List.mem_cons_of_mem _ hx)) kd hmem

/-- Processing one metadata map preserves the sample invariant of every
entry. -/
theorem analyzeStep_inv (m : List (String × FieldData))
    (md : Option (List (String × JSRef)))
    (hm : ∀ kd ∈ m, samplesOK kd.2) :
    ∀ kd ∈ analyzeStep m md, samplesOK kd.2 := by
  cases md with
  | none => exact hm
  | some entries =>
    exact foldl_preserves (fun acc => ∀ kd ∈ acc, samplesOK kd.2) _
      (fun acc kv hacc =>
        updateAssoc_forall kv.1 _
          (fun d hd => addObservation_samplesOK d kv.2 hd)
          (addObservation_samplesOK emptyFieldData kv.2
            ⟨by simp [emptyFieldData], List.Pairwise.nil⟩)
          acc hacc)
      entries m hm

/-- A successful association lookup is a member. -/
theorem lookup_mem {β : Type} (k : String) (d : β) :
    ∀ (m : List (String × β)), m.lookup k = some d → (k, d) ∈ m := by
  intro m
  induction m with
  | nil => intro h; simp [List.lookup] at h
  | cons hd tl ih =>
    obtain ⟨a, b⟩ := hd
    intro h
    rw [List.lookup] at h
    rcases hbeq : (k == a) with _ | _
    · rw [hbeq] at h
      exact List.mem_cons_of_mem _ (ih h)
    · rw [hbeq] at h
      injection h with h'
      have hk : k = a := eq_of_beq hbeq
      subst hk
      subst h'
      exact List.mem_cons_self _ _

/-- C9 (amended): for every key observed during refresh, at most 5
sample values are retained and they are pairwise distinct under
JavaScript SameValueZero — value equality for primitives, but reference
identity for array and object values, so structurally equal array or
object instances from different records are retained separately. -/
theorem c9_samples_bounded_and_reference_deduped
    (metadatas : List (Option (List (String × JSRef)))) (key : String)
    (d : FieldData)
    (hl : (analyzeMetadatas metadatas).lookup key = some d) :
    d.samples.length ≤ 5
    ∧ d.samples.Pairwise (fun a b => sameValueZero a b = false) := by
  have hmem := lookup_mem key d _ hl
  have hinv := foldl_preserves (fun acc => ∀ kd ∈ acc, samplesOK kd.2)
    analyzeStep (fun m md hm => analyzeStep_inv m md hm) metadatas []
    (by simp)
  exact hinv (key, d) hmem

/-- A single sampled number for the witness. -/
def oneNumberMetadata : List (Option (List (String × JSRef))) :=
  [some [("t", { val := .num 1, ref := 0 })]]

/-- The field data the route accumulates for `oneNumberMetadata`. -/
def tFieldData : FieldData :=
  { types := ["number"], samples := [{ val := .num 1, ref := 0 }] }

/-- Witness for C9: the single-sample field observes the bound and the
dedup invariant. -/
theorem c9_samples_bounded_witness :
    tFieldData.samples.length ≤ 5
    ∧ tFieldData.samples.Pairwise (fun a b => sameValueZero a b = false) :=
  c9_samples_bounded_and_reference_deduped oneNumberMetadata "t"
    tFieldData (by with_unfolding_all rfl)

/-- The array value `[1]` allocated by one sampled record. -/
def arrayRefOne : JSRef := { val := .arr [.num 1], ref := 100 }

/-- A structurally equal but separately allocated array value `[1]`
from a second sampled record. -/
def arrayRefTwo : JSRef := { val := .arr [.num 1], ref := 101 }

/-- Two sampled records whose `t` values are structurally equal
arrays. -/
def dupArrayMetadatas : List (Option (List (String × JSRef))) :=
  [some [("t", arrayRefOne)], some [("t", arrayRefTwo)]]

/-- Counterexample to C9: two structurally equal array values sampled
for the same key from different records are both retained — the sample
set is deduplicated by reference identity, not structural equality, so
the retained sample values are not structurally distinct. -/
theorem c9_structural_duplicates_retained :
    ((analyzeMetadatas dupArrayMetadatas).lookup "t").map
        (fun d => d.samples.map JSRef.val)
      = some [JVal.arr [.num 1], JVal.arr [.num 1]]
    ∧ arrayRefOne.val = arrayRefTwo.val
    ∧ ¬ ([JVal.arr [.num 1], JVal.arr [.num 1]] : List JVal).Nodup := by
  refine ⟨by with_unfolding_all rfl, rfl, ?_⟩
  intro h
  exact (List.pairwise_cons.mp h).1 _ (List.mem_singleton.mpr rfl) rfl

end ChromaViewer
